import Mathlib

/-!
Shallow embedding of the two C source files of denodrivers/sqlite3:
src/fast.c (the globals iflagptr and outintptr, the function fastconfig,
and the function sqlite3_column_int_fast) and src/bench/bench.c (the
globals total and count, and the functions get_version, bench and main).
The embedded database engine itself is a black box; its observable
behaviour is a parameter of the model.
-/

namespace Fast

/-- Narrowing of a 64-bit integer to a 32-bit int by the cast (int)i64 in
sqlite3_column_int_fast: reduction modulo 2^32, reinterpreted as signed. -/
def toInt32 (v : Int) : Int :=
  (v + 2147483648) % 4294967296 - 2147483648

/-- Process state of src/fast.c: the two globals iflagptr (a char pointer,
none models a null pointer) and outintptr (an sqlite3_int64 pointer),
together with the caller-owned memory they may point into, modelled as two
address spaces of char cells and of sqlite3_int64 cells. -/
structure FastState where
  iflagptr : Option Nat
  outintptr : Option Nat
  memC : Nat → Int
  memI64 : Nat → Int

/-- Store value v at address a of memory m. -/
def upd (m : Nat → Int) (a : Nat) (v : Int) : Nat → Int :=
  fun x => if x = a then v else m x

/-- The function fastconfig(flag, outint) of src/fast.c: stores the two
caller-supplied pointers into the globals, replacing any previous pair. -/
def fastconfig (s : FastState) (flag outint : Option Nat) : FastState :=
  { s with iflagptr := flag, outintptr := outint }

/-- The function sqlite3_column_int_fast of src/fast.c, applied to the
64-bit column value v that sqlite3_column_int64 returns for the requested
cursor position and column.  The outer none is a null-pointer dereference
(the function performs no validation of the configuration precondition).
The inner Option Int is the C return value: on the overflow branch control
falls off the end of the non-void function without a return statement, so
the direct return value is undefined, modelled as none. -/
def sqlite3_column_int_fast (s : FastState) (v : Int) : Option (FastState × Option Int) :=
  if 2147483647 < v then
    match s.iflagptr, s.outintptr with
    | some fa, some oa =>
        some ({ s with memC := upd s.memC fa 1, memI64 := upd s.memI64 oa v }, none)
    | _, _ => none
  else
    match s.iflagptr with
    | some fa => some ({ s with memC := upd s.memC fa 0 }, some (toInt32 v))
    | none => none

/-- Run a sequence of extractions, threading the process state; none if
some call dereferences a null target pointer. -/
def runExtracts (s : FastState) : List Int → Option FastState
  | [] => some s
  | v :: vs =>
    match sqlite3_column_int_fast s v with
    | some (s1, _) => runExtracts s1 vs
    | none => none

/-- A concrete configured state used to exercise the theorems: flag target
at char address 0, value target at wide address 1, both memories zeroed. -/
def s0 : FastState :=
  fastconfig { iflagptr := none, outintptr := none, memC := fun _ => 0, memI64 := fun _ => 0 }
    (some 0) (some 1)

/-- C1: for every 64-bit signed column value v with v > 2147483647, the
extractor sets the configured overflow flag to 1 and stores the full value
v, with no loss, into the configured 64-bit value target; its direct
return value is undefined (control falls off the end of the function). -/
theorem extract_overflow_full_value (s : FastState) (v : Int) (fa oa : Nat)
    (hf : s.iflagptr = some fa) (ho : s.outintptr = some oa)
    (hv : 2147483647 < v) (hub : v < 9223372036854775808) :
    ∃ s1, sqlite3_column_int_fast s v = some (s1, none) ∧
      s1.memC fa = 1 ∧ s1.memI64 oa = v := by
  refine ⟨{ s with memC := upd s.memC fa 1, memI64 := upd s.memI64 oa v }, ?_, ?_, ?_⟩
  · simp [sqlite3_column_int_fast, hf, ho, hv]
  · simp [upd]
  · simp [upd]

/-- Witness for C1 at v = 2147483648 in the concrete configured state. -/
theorem extract_overflow_full_value_at :
    ∃ s1, sqlite3_column_int_fast s0 2147483648 = some (s1, none) ∧
      s1.memC 0 = 1 ∧ s1.memI64 1 = 2147483648 :=
  extract_overflow_full_value s0 2147483648 0 1 rfl rfl (by decide) (by decide)

/-- C2: for every 64-bit signed column value v < 0 (including values below
-2147483648), the extractor sets the configured overflow flag to 0, leaves
the 64-bit value target untouched, and returns v narrowed to a 32-bit
signed integer, that is, v reduced modulo 2^32 and reinterpreted as
signed; no overflow is signalled for values below the 32-bit minimum. -/
theorem extract_negative_narrowed (s : FastState) (v : Int) (fa : Nat)
    (hf : s.iflagptr = some fa) (hneg : v < 0)
    (hlb : -9223372036854775808 ≤ v) :
    ∃ s1 r, sqlite3_column_int_fast s v = some (s1, some r) ∧
      s1.memC fa = 0 ∧ s1.memI64 = s.memI64 ∧ r = toInt32 v ∧
      r % 4294967296 = v % 4294967296 ∧
      -2147483648 ≤ r ∧ r < 2147483648 := by
  have hnv : ¬ 2147483647 < v := by omega
  refine ⟨{ s with memC := upd s.memC fa 0 }, toInt32 v, ?_, ?_, rfl, rfl, ?_, ?_, ?_⟩
  · simp [sqlite3_column_int_fast, hf, hnv]
  · simp [upd]
  · unfold toInt32; omega
  · unfold toInt32; omega
  · unfold toInt32; omega

/-- Witness for C2 at v = -2147483649 (below the 32-bit minimum, silently
narrowed) in the concrete configured state. -/
theorem extract_negative_narrowed_at :
    ∃ s1 r, sqlite3_column_int_fast s0 (-2147483649) = some (s1, some r) ∧
      s1.memC 0 = 0 ∧ s1.memI64 = s0.memI64 ∧ r = toInt32 (-2147483649) ∧
      r % 4294967296 = (-2147483649 : Int) % 4294967296 ∧
      -2147483648 ≤ r ∧ r < 2147483648 :=
  extract_negative_narrowed s0 (-2147483649) 0 rfl (by decide) (by decide)

/-- C3: for every 64-bit signed column value v with 0 ≤ v ≤ 2147483647,
the extractor sets the configured overflow flag to 0 and returns v
unchanged. -/
theorem extract_in_range_identity (s : FastState) (v : Int) (fa : Nat)
    (hf : s.iflagptr = some fa) (h0 : 0 ≤ v) (h1 : v ≤ 2147483647) :
    ∃ s1, sqlite3_column_int_fast s v = some (s1, some v) ∧ s1.memC fa = 0 := by
  have hnv : ¬ 2147483647 < v := by omega
  have ht : toInt32 v = v := by unfold toInt32; omega
  refine ⟨{ s with memC := upd s.memC fa 0 }, ?_, ?_⟩
  · simp [sqlite3_column_int_fast, hf, hnv, ht]
  · simp [upd]

/-- Witness for C3 at the boundary value v = 2147483647. -/
theorem extract_in_range_identity_at :
    ∃ s1, sqlite3_column_int_fast s0 2147483647 = some (s1, some 2147483647) ∧
      s1.memC 0 = 0 :=
  extract_in_range_identity s0 2147483647 0 rfl (by decide) (by decide)

/-- C4: whenever the column value does not exceed 2147483647, the call
leaves every 64-bit value cell, in particular the configured value target,
completely unchanged; the value target is written only on overflow. -/
theorem extract_no_overflow_preserves_target (s : FastState) (v : Int) (fa : Nat)
    (hf : s.iflagptr = some fa) (hv : v ≤ 2147483647)
    (hlb : -9223372036854775808 ≤ v) :
    ∃ s1 r, sqlite3_column_int_fast s v = some (s1, some r) ∧
      s1.memI64 = s.memI64 := by
  have hnv : ¬ 2147483647 < v := by omega
  refine ⟨{ s with memC := upd s.memC fa 0 }, toInt32 v, ?_, rfl⟩
  simp [sqlite3_column_int_fast, hf, hnv]

/-- Witness for C4 at v = 7 in the concrete configured state. -/
theorem extract_no_overflow_preserves_target_at :
    ∃ s1 r, sqlite3_column_int_fast s0 7 = some (s1, some r) ∧
      s1.memI64 = s0.memI64 :=
  extract_no_overflow_preserves_target s0 7 0 rfl (by decide) (by decide)

/-- C5: every invocation on a configured state writes the overflow flag
exactly once: afterwards the flag cell holds 1 if the column value
exceeded 2147483647 and 0 otherwise (so flag = 1 iff overflow), and no
other char cell changes. -/
theorem extract_flag_every_call (s : FastState) (v : Int) (fa oa : Nat)
    (hf : s.iflagptr = some fa) (ho : s.outintptr = some oa) :
    ∃ s1 r, sqlite3_column_int_fast s v = some (s1, r) ∧
      s1.memC fa = (if 2147483647 < v then 1 else 0) ∧
      (∀ a, a ≠ fa → s1.memC a = s.memC a) ∧
      (s1.memC fa = 1 ↔ 2147483647 < v) := by
  by_cases hv : 2147483647 < v
  · refine ⟨{ s with memC := upd s.memC fa 1, memI64 := upd s.memI64 oa v }, none,
      ?_, ?_, ?_, ?_⟩
    · simp [sqlite3_column_int_fast, hf, ho, hv]
    · simp [upd, hv]
    · intro a ha; simp [upd, ha]
    · simp [upd, hv]
  · refine ⟨{ s with memC := upd s.memC fa 0 }, some (toInt32 v), ?_, ?_, ?_, ?_⟩
    · simp [sqlite3_column_int_fast, hf, hv]
    · simp [upd, hv]
    · intro a ha; simp [upd, ha]
    · simp [upd, hv]

/-- Witness for C5 at v = -5 in the concrete configured state. -/
theorem extract_flag_every_call_at :
    ∃ s1 r, sqlite3_column_int_fast s0 (-5) = some (s1, r) ∧
      s1.memC 0 = (if (2147483647 : Int) < -5 then 1 else 0) ∧
      (∀ a, a ≠ 0 → s1.memC a = s0.memC a) ∧
      (s1.memC 0 = 1 ↔ (2147483647 : Int) < -5) :=
  extract_flag_every_call s0 (-5) 0 1 rfl rfl

/-- Helper frame lemma: running any sequence of extractions from a state
whose targets are configured at fa and oa succeeds, keeps the pointers,
and modifies no char cell other than fa and no wide cell other than oa. -/
theorem runExtracts_frame (fa oa : Nat) (vs : List Int) :
    ∀ s : FastState, s.iflagptr = some fa → s.outintptr = some oa →
      ∃ s1, runExtracts s vs = some s1 ∧ s1.iflagptr = some fa ∧
        s1.outintptr = some oa ∧
        (∀ a, a ≠ fa → s1.memC a = s.memC a) ∧
        (∀ a, a ≠ oa → s1.memI64 a = s.memI64 a) := by
  induction vs with
  | nil =>
    intro s hf ho
    exact ⟨s, rfl, hf, ho, fun a _ => rfl, fun a _ => rfl⟩
  | cons v vs ih =>
    intro s hf ho
    by_cases hv : 2147483647 < v
    · have hstep : sqlite3_column_int_fast s v =
          some ({ s with memC := upd s.memC fa 1, memI64 := upd s.memI64 oa v }, none) := by
        simp [sqlite3_column_int_fast, hf, ho, hv]
      obtain ⟨s1, hrun, h1, h2, h3, h4⟩ :=
        ih { s with memC := upd s.memC fa 1, memI64 := upd s.memI64 oa v } hf ho
      refine ⟨s1, ?_, h1, h2, ?_, ?_⟩
      · simp [runExtracts, hstep, hrun]
      · intro a ha; rw [h3 a ha]; simp [upd, ha]
      · intro a ha; rw [h4 a ha]; simp [upd, ha]
    · have hstep : sqlite3_column_int_fast s v =
          some ({ s with memC := upd s.memC fa 0 }, some (toInt32 v)) := by
        simp [sqlite3_column_int_fast, hf, hv]
      obtain ⟨s1, hrun, h1, h2, h3, h4⟩ :=
        ih { s with memC := upd s.memC fa 0 } hf ho
      refine ⟨s1, ?_, h1, h2, ?_, ?_⟩
      · simp [runExtracts, hstep, hrun]
      · intro a ha; rw [h3 a ha]; simp [upd, ha]
      · intro a ha; exact h4 a ha

/-- C6: after reconfiguring with a new pair of targets, every subsequent
extraction writes only to the new flag and value targets; in particular
the previously configured targets (at different addresses) are never
touched again, over any sequence of subsequent extractions. -/
theorem reconfigure_redirects (s : FastState) (fa oa oldfa oldoa : Nat)
    (vs : List Int) (h1 : oldfa ≠ fa) (h2 : oldoa ≠ oa) :
    ∃ s1, runExtracts (fastconfig s (some fa) (some oa)) vs = some s1 ∧
      (∀ a, a ≠ fa → s1.memC a = s.memC a) ∧
      (∀ a, a ≠ oa → s1.memI64 a = s.memI64 a) ∧
      s1.memC oldfa = s.memC oldfa ∧ s1.memI64 oldoa = s.memI64 oldoa := by
  obtain ⟨s1, hrun, _, _, hC, hI⟩ :=
    runExtracts_frame fa oa vs (fastconfig s (some fa) (some oa)) rfl rfl
  exact ⟨s1, hrun, fun a ha => hC a ha, fun a ha => hI a ha, hC oldfa h1, hI oldoa h2⟩

/-- Witness for C6: reconfigure from targets 0,1 to targets 2,3 and run
two extractions; the old targets stay unchanged. -/
theorem reconfigure_redirects_at :
    ∃ s1, runExtracts (fastconfig s0 (some 2) (some 3)) [5, 4294967296] = some s1 ∧
      (∀ a, a ≠ 2 → s1.memC a = s0.memC a) ∧
      (∀ a, a ≠ 3 → s1.memI64 a = s0.memI64 a) ∧
      s1.memC 0 = s0.memC 0 ∧ s1.memI64 1 = s0.memI64 1 :=
  reconfigure_redirects s0 2 3 0 1 [5, 4294967296] (by decide) (by decide)

end Fast

namespace Bench

/-- Result code SQLITE_ROW of the engine. -/
def SQLITE_ROW : Int := 100

/-- Black-box behaviour of the engine for the one prepared statement of
the benchmark: stepFn n is the code the (n+1)-st sqlite3_step call of the
process returns, and colFn n i the value sqlite3_column_int(stmt, i)
yields after that step. -/
structure StmtModel where
  stepFn : Nat → Int
  colFn : Nat → Nat → Int

/-- Client-visible statement state: number of sqlite3_step calls made so
far, and whether sqlite3_finalize has been called on the handle. -/
structure StmtState where
  steps : Nat
  finalized : Bool
  deriving DecidableEq

/-- Observable calls into the engine made on the statement. -/
inductive BEvent where
  | stepEv (code : Int)
  | columnEv (icol : Nat) (v : Int)
  | resetEv
  | finalizeEv
  deriving DecidableEq

/-- The function get_version of src/bench/bench.c: one sqlite3_step; on
SQLITE_ROW it reads column 0, resets the statement and returns the column
value; on any other code (exhausted or failed) it finalizes the statement
and returns 0.  The result is the new statement state, the C return value
and the trace of engine calls. -/
def get_version (m : StmtModel) (st : StmtState) : StmtState × Int × List BEvent :=
  let code := m.stepFn st.steps
  if code = SQLITE_ROW then
    let v := m.colFn st.steps 0
    ({ steps := st.steps + 1, finalized := st.finalized }, v,
      [BEvent.stepEv code, BEvent.columnEv 0 v, BEvent.resetEv])
  else
    ({ steps := st.steps + 1, finalized := true }, 0,
      [BEvent.stepEv code, BEvent.finalizeEv])

/-- The timed loop body of bench, get_version iterated n times. -/
def benchIter (m : StmtModel) : Nat → StmtState → StmtState × List BEvent
  | 0, st => (st, [])
  | n + 1, st =>
    let r := get_version m st
    let r2 := benchIter m n r.1
    (r2.1, r.2.2 ++ r2.2)

/-- The function bench of src/bench/bench.c: runs the loop
for i from 0 while i < count (so count.toNat iterations, none when count
is not positive) and prints exactly one timing line; the wall-clock
numbers printed come from clock() and are not modelled, only the count of
printed lines (the last component) is. -/
def bench (m : StmtModel) (st : StmtState) (count : Int) : StmtState × List BEvent × Nat :=
  let r := benchIter m count.toNat st
  (r.1, r.2, 1)

/-- The loop of main, while total decrements to zero calling bench, run
for n batches: final statement state, concatenated trace, lines printed. -/
def runBatches (m : StmtModel) (count : Int) : Nat → StmtState → StmtState × List BEvent × Nat
  | 0, st => (st, [], 0)
  | n + 1, st =>
    let r := bench m st count
    let r2 := runBatches m count n r.1
    (r2.1, r.2.1 ++ r2.2.1, r.2.2 + r2.2.2)

/-- The character class the C function isspace accepts in the default
locale. -/
def isCSpace (c : Char) : Bool :=
  c = ' ' || c = '\t' || c = '\n' || c = '\x0b' || c = '\x0c' || c = '\r'

/-- Digit-accumulation loop of the C function atoi: consume decimal
digits, stopping at the first non-digit. -/
def atoiDigits : List Char → Int → Int
  | [], acc => acc
  | c :: cs, acc =>
    if c.isDigit then atoiDigits cs (acc * 10 + ((c.toNat : Int) - 48)) else acc

/-- The C function atoi: optional leading whitespace, an optional sign,
then decimal digits; 0 when no digits are present. -/
def atoi (s : String) : Int :=
  match s.data.dropWhile isCSpace with
  | '-' :: cs => -(atoiDigits cs 0)
  | '+' :: cs => atoiDigits cs 0
  | cs => atoiDigits cs 0

/-- Result of one run of main: the parsed globals total and count, the
trace of statement calls (the batch loop followed by the teardown
sqlite3_finalize), and the number of timing lines printed. -/
structure MainResult where
  total : Int
  count : Int
  events : List BEvent
  lines : Nat
  finalState : StmtState

/-- Body of main after argument parsing, with the globals total and count
already set.  When total is negative, while (total--) underruns the int
counter (no terminating run within the int range), which is not modelled:
the result is none.  The sqlite3_open_v2, sqlite3_prepare_v2 and the four
PRAGMA sqlite3_exec calls set up the black-box engine and are absorbed
into StmtModel; sqlite3_close and the engine shutdown produce no
statement events. -/
def mainWith (m : StmtModel) (total count : Int) : Option MainResult :=
  if 0 ≤ total then
    let r := runBatches m count total.toNat { steps := 0, finalized := false }
    some { total := total, count := count,
           events := r.2.1 ++ [BEvent.finalizeEv], lines := r.2.2,
           finalState := { r.1 with finalized := true } }
  else none

/-- The function main of src/bench/bench.c, applied to the argv list
(argv.length is argc, the head is the program name): the first positional
argument, when present, replaces total (default 5) via atoi, the second
replaces count (default 1000000), then the batch loop and teardown run. -/
def main (m : StmtModel) (argv : List String) : Option MainResult :=
  mainWith m (if 1 < argv.length then atoi (argv.getD 1 "") else 5)
    (if 2 < argv.length then atoi (argv.getD 2 "") else 1000000)

/-- Helper: every batch prints exactly one line, so n batches print n. -/
theorem runBatches_lines (m : StmtModel) (count : Int) :
    ∀ n st, (runBatches m count n st).2.2 = n := by
  intro n
  induction n with
  | zero => intro st; rfl
  | succ k ih =>
    intro st
    simp [runBatches, bench, ih]
    omega

/-- Helper: the shape of a successful run of the body of main. -/
theorem mainWith_spec (m : StmtModel) (total count : Int) (h : 0 ≤ total) :
    ∃ r, mainWith m total count = some r ∧ r.total = total ∧ r.count = count ∧
      r.lines = total.toNat ∧
      r.events =
        (runBatches m count total.toNat { steps := 0, finalized := false }).2.1
          ++ [BEvent.finalizeEv] := by
  unfold mainWith
  rw [if_pos h]
  exact ⟨_, rfl, rfl, rfl, runBatches_lines m count total.toNat _, rfl⟩

end Bench

namespace Bench

/-- C7: on every invocation of get_version, when the step does not yield a
row (any code other than SQLITE_ROW, exhausted or failed alike) the
routine finalizes the statement and returns 0; only when the step yields a
row does it read column 0, reset the statement, and return that column
value. -/
theorem get_version_no_row_finalizes (m : StmtModel) (st : StmtState) :
    (m.stepFn st.steps ≠ SQLITE_ROW →
      get_version m st =
        ({ steps := st.steps + 1, finalized := true }, 0,
          [BEvent.stepEv (m.stepFn st.steps), BEvent.finalizeEv])) ∧
    (m.stepFn st.steps = SQLITE_ROW →
      get_version m st =
        ({ steps := st.steps + 1, finalized := st.finalized },
          m.colFn st.steps 0,
          [BEvent.stepEv (m.stepFn st.steps),
            BEvent.columnEv 0 (m.colFn st.steps 0), BEvent.resetEv])) := by
  constructor <;> intro h <;> simp [get_version, h]

/-- A statement behaviour whose step always reports SQLITE_DONE (101). -/
def mDone : StmtModel :=
  { stepFn := fun _ => 101, colFn := fun _ _ => 0 }

/-- A statement behaviour whose step always yields a row whose column 0
holds 100 (the benchmark reads pragma user_version, set to 100). -/
def mRow : StmtModel :=
  { stepFn := fun _ => 100, colFn := fun _ _ => 100 }

/-- Witness for C7 on a fresh statement whose first step reports done. -/
theorem get_version_no_row_finalizes_at :
    get_version mDone { steps := 0, finalized := false } =
      ({ steps := 1, finalized := true }, 0,
        [BEvent.stepEv 101, BEvent.finalizeEv]) :=
  (get_version_no_row_finalizes mDone { steps := 0, finalized := false }).1 (by decide)

/-- C8: with batch count 1 and 3 iterations per batch, against a statement
whose step always yields a row, the driver performs the
step, column-0 read, reset cycle exactly 3 times and prints exactly one
timing line. -/
theorem bench_three_iterations (m : StmtModel)
    (h : ∀ n, m.stepFn n = SQLITE_ROW) :
    runBatches m 3 1 { steps := 0, finalized := false } =
      ({ steps := 3, finalized := false },
        [BEvent.stepEv 100, BEvent.columnEv 0 (m.colFn 0 0), BEvent.resetEv,
          BEvent.stepEv 100, BEvent.columnEv 0 (m.colFn 1 0), BEvent.resetEv,
          BEvent.stepEv 100, BEvent.columnEv 0 (m.colFn 2 0), BEvent.resetEv],
        1) := by
  have h3 : (3 : Int).toNat = 3 := rfl
  simp [runBatches, bench, h3, benchIter, get_version, h, SQLITE_ROW]

/-- Witness for C8 against the always-row behaviour. -/
theorem bench_three_iterations_at :
    runBatches mRow 3 1 { steps := 0, finalized := false } =
      ({ steps := 3, finalized := false },
        [BEvent.stepEv 100, BEvent.columnEv 0 (mRow.colFn 0 0), BEvent.resetEv,
          BEvent.stepEv 100, BEvent.columnEv 0 (mRow.colFn 1 0), BEvent.resetEv,
          BEvent.stepEv 100, BEvent.columnEv 0 (mRow.colFn 2 0), BEvent.resetEv],
        1) :=
  bench_three_iterations mRow (fun _ => rfl)

/-- C9: main takes two optional positional arguments: with none, the batch
count is 5 and the iterations per batch 1000000; with them, atoi of the
first replaces the batch count and atoi of the second replaces the
iterations per batch; and one timing line is printed per batch. -/
theorem main_arg_parsing (m : StmtModel) (p a1 a2 : String)
    (h : 0 ≤ atoi a1) :
    (∃ r, main m [p] = some r ∧ r.total = 5 ∧ r.count = 1000000 ∧
      r.lines = 5) ∧
    (∃ r, main m [p, a1] = some r ∧ r.total = atoi a1 ∧ r.count = 1000000 ∧
      r.lines = (atoi a1).toNat) ∧
    (∃ r, main m [p, a1, a2] = some r ∧ r.total = atoi a1 ∧
      r.count = atoi a2 ∧ r.lines = (atoi a1).toNat) := by
  obtain ⟨r0, e0, t0, c0, l0, _⟩ := mainWith_spec m 5 1000000 (by decide)
  obtain ⟨r1, e1, t1, c1, l1, _⟩ := mainWith_spec m (atoi a1) 1000000 h
  obtain ⟨r2, e2, t2, c2, l2, _⟩ := mainWith_spec m (atoi a1) (atoi a2) h
  exact ⟨⟨r0, e0, t0, c0, l0⟩, ⟨r1, e1, t1, c1, l1⟩, ⟨r2, e2, t2, c2, l2⟩⟩

/-- Witness for C9 with arguments 2 and 3. -/
theorem main_arg_parsing_at :
    (∃ r, main mRow [("bench")] = some r ∧ r.total = 5 ∧
      r.count = 1000000 ∧ r.lines = 5) ∧
    (∃ r, main mRow [("bench"), ("2")] = some r ∧ r.total = atoi ("2") ∧
      r.count = 1000000 ∧ r.lines = (atoi ("2")).toNat) ∧
    (∃ r, main mRow [("bench"), ("2"), ("3")] = some r ∧
      r.total = atoi ("2") ∧ r.count = atoi ("3") ∧
      r.lines = (atoi ("2")).toNat) :=
  main_arg_parsing mRow ("bench") ("2") ("3") (by decide)

/-- C10: when the first positional argument parses to 0, main runs zero
batches: bench is never invoked, so the trace holds no step and no reset
call and no timing line is printed; only the teardown finalize remains. -/
theorem main_zero_batches (m : StmtModel) (p a1 : String)
    (h : atoi a1 = 0) :
    ∃ r, main m [p, a1] = some r ∧ r.events = [BEvent.finalizeEv] ∧
      r.lines = 0 ∧ (∀ c, BEvent.stepEv c ∉ r.events) ∧
      BEvent.resetEv ∉ r.events := by
  obtain ⟨r, e, _, _, hl, he⟩ := mainWith_spec m (atoi a1) 1000000 (le_of_eq h.symm)
  have hev : r.events = [BEvent.finalizeEv] := by
    rw [he, h]; rfl
  refine ⟨r, e, hev, ?_, ?_, ?_⟩
  · rw [hl, h]; rfl
  · intro c; rw [hev]; simp
  · rw [hev]; simp

/-- Witness for C10 at the literal argument 0. -/
theorem main_zero_batches_at :
    ∃ r, main mDone [("bench"), ("0")] = some r ∧
      r.events = [BEvent.finalizeEv] ∧ r.lines = 0 ∧
      (∀ c, BEvent.stepEv c ∉ r.events) ∧ BEvent.resetEv ∉ r.events :=
  main_zero_batches mDone ("bench") ("0") (by decide)

end Bench
